import Mathlib

/-!
Verification of the protocol/data core of `tesla.py`: the Modbus RTU CRC,
the response-frame builder `format_modbus_response`, the file-backed register
lookup `validate_file_response`, and the read dispatcher `getValues` of the
`FileBasedModbusDataStore` class. Python functions are embedded as total Lean
functions; the filesystem is a map from register address to the lines of the
corresponding response file, and the logger is modelled as a list of
structured records returned next to each function's Python return value.
-/

namespace Tesla

/-- Whitespace characters removed by Python str.strip on the ASCII inputs
this program reads: space, tab, newline, carriage return, vertical tab and
form feed. -/
def pyIsSpace (c : Char) : Bool :=
  c = ' ' || c = '\t' || c = '\n' || c = '\r' || c = Char.ofNat 11 || c = Char.ofNat 12

/-- Embedding of Python str.strip: drop whitespace from both ends. -/
def pyStrip (s : String) : String :=
  String.mk (((s.data.dropWhile pyIsSpace).reverse.dropWhile pyIsSpace).reverse)

/-- Test applied to each stripped line, startswith of the characters 0 and x. -/
def keepsLine (s : String) : Bool :=
  match s.data with
  | '0' :: 'x' :: _ => true
  | _ => false

/-- Hexadecimal digit recognizer of Python int with base 16. -/
def isHexDigitChar (c : Char) : Bool :=
  ('0' ≤ c && c ≤ '9') || ('a' ≤ c && c ≤ 'f') || ('A' ≤ c && c ≤ 'F')

/-- Numeric value of a hexadecimal digit character. -/
def hexDigitVal (c : Char) : Nat :=
  if c ≤ '9' then c.toNat - 48
  else if c ≤ 'F' then c.toNat - 55
  else c.toNat - 87

/-- Digits after the 0x base marker, per the Python int grammar with base 16:
hexadecimal digits with single underscores allowed between digits (and one
directly after the base marker), none at the end and none doubled. -/
def parseHexCore : Nat → List Char → Option Nat
  | acc, [] => some acc
  | acc, c :: cs =>
    if isHexDigitChar c then parseHexCore (acc * 16 + hexDigitVal c) cs
    else if c = '_' then
      match cs with
      | [] => none
      | c2 :: cs2 =>
        if isHexDigitChar c2 then parseHexCore (acc * 16 + hexDigitVal c2) cs2
        else none
    else none

/-- Embedding of int applied with base 16 to a stripped kept line: parses a
0x-prefixed hexadecimal literal, returning none where Python raises
ValueError. -/
def parseHexLine (s : String) : Option Nat :=
  match s.data with
  | '0' :: 'x' :: rest =>
    match rest with
    | [] => none
    | _ => parseHexCore 0 rest
  | _ => none

/-- Sequential evaluation of a comprehension that can raise: apply f to each
element in order, the whole computation failing as soon as one element
fails. -/
def optionMapList {α β : Type _} (f : α → Option β) : List α → Option (List β)
  | [] => some []
  | a :: as =>
    match f a with
    | none => none
    | some b =>
      match optionMapList f as with
      | none => none
      | some bs => some (b :: bs)

/-- Values parsed from a response file given as its list of lines: the list
comprehension of validate_file_response, keeping lines whose stripped form
starts with 0x and parsing each kept line as base-16, none when a kept line
raises ValueError. -/
def parsedValues (lines : List String) : Option (List Nat) :=
  optionMapList (fun l => parseHexLine (pyStrip l))
    (lines.filter (fun l => keepsLine (pyStrip l)))

/-- One iteration of the inner loop of calculate_crc: conditional shift with
the reflected polynomial 0xA001. -/
def crcRound (crc : Nat) : Nat :=
  if crc &&& 1 ≠ 0 then (crc >>> 1) ^^^ 0xA001 else crc >>> 1

/-- Eight-fold repetition, the inner for loop of calculate_crc. -/
def crcRounds : Nat → Nat → Nat
  | 0, crc => crc
  | n + 1, crc => crcRounds n (crcRound crc)

/-- Embedding of calculate_crc: Modbus RTU CRC16 over a list of byte
values, accumulator initialised to 0xFFFF. -/
def calculate_crc (data : List Nat) : Nat :=
  data.foldl (fun crc x => crcRounds 8 (crc ^^^ x)) 0xFFFF

/-- Payload assembled by format_modbus_response before the CRC is appended:
slave address, function code, byte count, then each register value extended
as high byte followed by low byte. -/
def response_payload (slave_address function_code : Nat) (values : List Nat) : List Nat :=
  values.foldl
    (fun acc value => acc ++ [(value >>> 8) &&& 0xFF, value &&& 0xFF])
    [slave_address, function_code, values.length * 2]

/-- Byte list assembled by format_modbus_response: the payload extended with
the CRC low byte followed by the CRC high byte. -/
def response_frame (slave_address function_code : Nat) (values : List Nat) : List Nat :=
  response_payload slave_address function_code values
    ++ [calculate_crc (response_payload slave_address function_code values) &&& 0xFF,
        (calculate_crc (response_payload slave_address function_code values) >>> 8) &&& 0xFF]

/-- Uppercase hexadecimal digit character of a value below 16. -/
def hexUpperChar (n : Nat) : Char :=
  if n < 10 then Char.ofNat (48 + n) else Char.ofNat (55 + n)

/-- Hexadecimal digits of n, least significant first, empty on zero. -/
def hexRev : Nat → List Char
  | 0 => []
  | n + 1 => hexUpperChar ((n + 1) % 16) :: hexRev ((n + 1) / 16)
decreasing_by exact Nat.div_lt_self (Nat.succ_pos _) (by norm_num)

/-- Python format 02X: uppercase hexadecimal, zero padded to width two. -/
def format02X (n : Nat) : String :=
  String.mk (List.replicate (2 - (hexRev n).reverse.length) '0' ++ (hexRev n).reverse)

/-- Embedding of format_modbus_response: the space-joined hexadecimal
rendering of the response frame, which is the string the function returns. -/
def format_modbus_response (slave_address function_code : Nat) (values : List Nat) : String :=
  String.intercalate " " ((response_frame slave_address function_code values).map format02X)

/-- Severity of an emitted log record. -/
inductive LogLevel where
  | info
  | warning
  | error
deriving DecidableEq

/-- Structured content of the log records the datastore emits. -/
inductive LogMsg where
  | receivedRequest (fx address count : Nat)
  | insufficientData (address requested available : Nat)
  | requestDetails (address requested available : Nat)
  | noResponseFile (address : Nat)
  | parseFailure (address : Nat)
  | fullResponse (hex : String)
  | fullResponseNotSent (hex : String)
deriving DecidableEq

/-- One emitted log record: a severity and a structured message. -/
structure LogEntry where
  level : LogLevel
  msg : LogMsg
deriving DecidableEq

/-- Embedding of validate_file_response over a filesystem mapping each
register address (the file named by its decimal form in the response
directory) to the lines of its file when it exists. The first component is
the Python return value, the second the emitted log records: warning on a
missing file, error on a ValueError from a kept line, warning on
insufficient data, info on success. -/
def validate_file_response (fs : Nat → Option (List String))
    (register_address count : Nat) : Option (List Nat) × List LogEntry :=
  match fs register_address with
  | none => (none, [⟨LogLevel.warning, LogMsg.noResponseFile register_address⟩])
  | some lines =>
    match parsedValues lines with
    | none => (none, [⟨LogLevel.error, LogMsg.parseFailure register_address⟩])
    | some hex_values =>
      if hex_values.length < count then
        (none, [⟨LogLevel.warning,
          LogMsg.insufficientData register_address count hex_values.length⟩])
      else
        (some (hex_values.take count),
          [⟨LogLevel.info, LogMsg.requestDetails register_address count hex_values.length⟩])

/-- Embedding of getValues, the overridden read handler. The inherited
pymodbus handler is abstracted as the fallback argument, dummy_mode is the
dry-run flag, and none stands for the Python None no-response sentinel. The
first component is the Python return value, the second the emitted log
records in order. -/
def getValues (fallback : Nat → Nat → Nat → Option (List Nat))
    (fs : Nat → Option (List String)) (dummy_mode : Bool)
    (fx address count : Nat) : Option (List Nat) × List LogEntry :=
  let received : LogEntry := ⟨LogLevel.info, LogMsg.receivedRequest fx address count⟩
  if fx = 3 ∨ fx = 4 then
    match validate_file_response fs address count with
    | (some values, vlogs) =>
      let full_response := format_modbus_response 1 fx values
      if dummy_mode then
        (none, received :: vlogs ++
          [⟨LogLevel.info, LogMsg.fullResponseNotSent full_response⟩])
      else
        (some values, received :: vlogs ++
          [⟨LogLevel.info, LogMsg.fullResponse full_response⟩])
    | (none, vlogs) => (none, received :: vlogs)
  else
    (fallback fx address count, [received])

/-- Big-endian two-byte split of each 16-bit register value, high byte then
low byte, used to state the frame-layout property. -/
def encodeRegisters : List Nat → List Nat
  | [] => []
  | v :: vs => v / 256 :: v % 256 :: encodeRegisters vs

/-- Reference conditional shift step of the Modbus RTU CRC16 algorithm as
the specification states it, written independently of the source embedding. -/
def refStep (acc : Nat) : Nat :=
  if acc % 2 = 1 then (acc / 2) ^^^ 0xA001 else acc / 2

/-- Reference repetition of the shift step. -/
def refSteps : Nat → Nat → Nat
  | acc, 0 => acc
  | acc, n + 1 => refSteps (refStep acc) n

/-- Reference accumulation over the input bytes. -/
def refAccum : List Nat → Nat → Nat
  | [], acc => acc
  | b :: bs, acc => refAccum bs (refSteps (acc ^^^ b) 8)

/-- Reference Modbus RTU CRC16 per the specification, for comparison with
calculate_crc. -/
def crc16_reference (data : List Nat) : Nat :=
  refAccum data 0xFFFF

/-- Source-shape byte encoding produced by the foldl in response_payload. -/
def encBytes : List Nat → List Nat
  | [] => []
  | v :: vs => ((v >>> 8) &&& 0xFF) :: (v &&& 0xFF) :: encBytes vs

lemma and_255_eq_mod (n : Nat) : n &&& 0xFF = n % 256 := by
  have h := Nat.and_pow_two_sub_one_eq_mod n 8
  norm_num at h
  exact h

lemma shiftRight8_eq_div (n : Nat) : n >>> 8 = n / 256 := by
  have h := Nat.shiftRight_eq_div_pow n 8
  norm_num at h
  exact h

lemma shiftRight1_eq_div (n : Nat) : n >>> 1 = n / 2 := by
  have h := Nat.shiftRight_eq_div_pow n 1
  norm_num at h
  exact h

lemma crcRound_lt {c : Nat} (h : c < 2 ^ 16) : crcRound c < 2 ^ 16 := by
  unfold crcRound
  have hd : c >>> 1 < 2 ^ 16 := by
    rw [shiftRight1_eq_div]
    exact lt_of_le_of_lt (Nat.div_le_self c 2) h
  split
  · exact Nat.xor_lt_two_pow hd (by norm_num)
  · exact hd

lemma crcRounds_lt {c : Nat} (n : Nat) (h : c < 2 ^ 16) : crcRounds n c < 2 ^ 16 := by
  induction n generalizing c with
  | zero => exact h
  | succ k ih =>
    show crcRounds k (crcRound c) < 2 ^ 16
    exact ih (crcRound_lt h)

lemma foldl_crc_lt : ∀ (data : List Nat) (acc : Nat), acc < 2 ^ 16 →
    (∀ x ∈ data, x < 2 ^ 16) →
    data.foldl (fun crc x => crcRounds 8 (crc ^^^ x)) acc < 2 ^ 16
  | [], _, hacc, _ => hacc
  | b :: bs, acc, hacc, h =>
    foldl_crc_lt bs (crcRounds 8 (acc ^^^ b))
      (crcRounds_lt 8 (Nat.xor_lt_two_pow hacc (h b (List.mem_cons_self b bs))))
      (fun x hx => h x (List.mem_cons_of_mem b hx))

lemma calculate_crc_lt (data : List Nat) (h : ∀ x ∈ data, x < 2 ^ 16) :
    calculate_crc data < 2 ^ 16 :=
  foldl_crc_lt data 0xFFFF (by norm_num) h

lemma foldl_encBytes : ∀ (values init : List Nat),
    values.foldl (fun acc value => acc ++ [(value >>> 8) &&& 0xFF, value &&& 0xFF]) init
      = init ++ encBytes values
  | [], init => by simp [encBytes]
  | v :: vs, init => by
    rw [List.foldl_cons, foldl_encBytes vs]
    simp [encBytes]

lemma encBytes_eq_encodeRegisters : ∀ (values : List Nat), (∀ v ∈ values, v < 2 ^ 16) →
    encBytes values = encodeRegisters values
  | [], _ => rfl
  | v :: vs, h => by
    have hv : v < 2 ^ 16 := h v (List.mem_cons_self v vs)
    have h1 : (v >>> 8) &&& 0xFF = v / 256 := by
      rw [shiftRight8_eq_div, and_255_eq_mod]
      exact Nat.mod_eq_of_lt (by omega)
    have h2 : v &&& 0xFF = v % 256 := and_255_eq_mod v
    simp [encBytes, encodeRegisters, h1, h2,
      encBytes_eq_encodeRegisters vs (fun x hx => h x (List.mem_cons_of_mem v hx))]

lemma encodeRegisters_lt : ∀ (values : List Nat), (∀ v ∈ values, v < 2 ^ 16) →
    ∀ x ∈ encodeRegisters values, x < 2 ^ 16
  | [], _, x, hx => by simp [encodeRegisters] at hx
  | v :: vs, h, x, hx => by
    have hv : v < 2 ^ 16 := h v (List.mem_cons_self v vs)
    simp only [encodeRegisters, List.mem_cons] at hx
    rcases hx with rfl | rfl | hx
    · omega
    · omega
    · exact encodeRegisters_lt vs (fun y hy => h y (List.mem_cons_of_mem v hy)) x hx

lemma response_payload_eq (slave_address function_code : Nat) (values : List Nat)
    (hv : ∀ v ∈ values, v < 2 ^ 16) :
    response_payload slave_address function_code values
      = slave_address :: function_code :: 2 * values.length :: encodeRegisters values := by
  unfold response_payload
  rw [foldl_encBytes, encBytes_eq_encodeRegisters values hv]
  simp [Nat.mul_comm]

/-- Claim C1: for every slave address, function code and non-empty sequence
of register values, the frame built by format_modbus_response is the header
byte triple with byte count twice the number of values, followed by each
value split big-endian into high byte and low byte, followed by the 16-bit
CRC of all preceding frame bytes placed low byte first; the returned string
is the hexadecimal rendering of exactly that byte list. -/
theorem frame_layout (slave_address function_code : Nat) (values : List Nat)
    (hsa : slave_address < 256) (hfc : function_code < 256)
    (hne : values ≠ []) (hlen : values.length < 2 ^ 15)
    (hv : ∀ v ∈ values, v < 2 ^ 16) :
    response_frame slave_address function_code values
        = (slave_address :: function_code :: 2 * values.length :: encodeRegisters values)
          ++ [calculate_crc (slave_address :: function_code :: 2 * values.length
                :: encodeRegisters values) % 256,
              calculate_crc (slave_address :: function_code :: 2 * values.length
                :: encodeRegisters values) / 256]
      ∧ calculate_crc (slave_address :: function_code :: 2 * values.length
          :: encodeRegisters values) < 2 ^ 16
      ∧ format_modbus_response slave_address function_code values
          = String.intercalate " "
              ((response_frame slave_address function_code values).map format02X) := by
  have hpayload := response_payload_eq slave_address function_code values hv
  have hcrclt : calculate_crc (slave_address :: function_code :: 2 * values.length
      :: encodeRegisters values) < 2 ^ 16 := by
    apply calculate_crc_lt
    intro x hx
    simp only [List.mem_cons] at hx
    rcases hx with rfl | rfl | rfl | hx
    · omega
    · omega
    · omega
    · exact encodeRegisters_lt values hv x hx
  refine ⟨?_, hcrclt, rfl⟩
  unfold response_frame
  rw [hpayload, and_255_eq_mod, shiftRight8_eq_div, and_255_eq_mod]
  have hdivlt : calculate_crc (slave_address :: function_code :: 2 * values.length
      :: encodeRegisters values) / 256 < 256 := by omega
  rw [Nat.mod_eq_of_lt hdivlt]

lemma crcRound_eq_refStep (c : Nat) : crcRound c = refStep c := by
  unfold crcRound refStep
  rw [Nat.and_one_is_mod, shiftRight1_eq_div]
  rcases Nat.mod_two_eq_zero_or_one c with h | h <;> simp [h]

lemma crcRounds_eq_refSteps : ∀ (n c : Nat), crcRounds n c = refSteps c n
  | 0, _ => rfl
  | n + 1, c => by
    show crcRounds n (crcRound c) = refSteps (refStep c) n
    rw [crcRound_eq_refStep]
    exact crcRounds_eq_refSteps n (refStep c)

lemma foldl_eq_refAccum : ∀ (data : List Nat) (acc : Nat),
    data.foldl (fun crc x => crcRounds 8 (crc ^^^ x)) acc = refAccum data acc
  | [], _ => rfl
  | b :: bs, acc => by
    show bs.foldl (fun crc x => crcRounds 8 (crc ^^^ x)) (crcRounds 8 (acc ^^^ b))
        = refAccum bs (refSteps (acc ^^^ b) 8)
    rw [crcRounds_eq_refSteps]
    exact foldl_eq_refAccum bs (refSteps (acc ^^^ b) 8)

/-- Claim C2: calculate_crc equals the reference Modbus RTU CRC16 algorithm
stated by the specification on every sequence of 8-bit bytes, and returns
0xFFFF on the empty sequence. -/
theorem crc_reference_match (data : List Nat) (h : ∀ b ∈ data, b < 256) :
    calculate_crc data = crc16_reference data ∧ calculate_crc [] = 0xFFFF :=
  ⟨foldl_eq_refAccum data 0xFFFF, rfl⟩

/-- Witness for claim C1 at a concrete frame. -/
theorem frame_layout_check :
    response_frame 1 3 [10]
        = (1 :: 3 :: 2 * [10].length :: encodeRegisters [10])
          ++ [calculate_crc (1 :: 3 :: 2 * [10].length :: encodeRegisters [10]) % 256,
              calculate_crc (1 :: 3 :: 2 * [10].length :: encodeRegisters [10]) / 256] :=
  (frame_layout 1 3 [10] (by norm_num) (by norm_num) (by decide) (by decide) (by decide)).1

/-- Witness for claim C2 at a concrete byte sequence. -/
theorem crc_reference_match_check :
    calculate_crc [1, 2, 3] = crc16_reference [1, 2, 3] ∧ calculate_crc [] = 0xFFFF :=
  crc_reference_match [1, 2, 3] (by decide)

/-- Claim C3: on function code 3 or 4 with a successful lookup, getValues
returns the no-response sentinel in dummy mode and exactly the looked-up
values in live mode, and in both modes a log record carrying the full
hexadecimal rendering of the would-be response frame is emitted. -/
theorem dryrun_suppression (fallback fallback' : Nat → Nat → Nat → Option (List Nat))
    (fs : Nat → Option (List String)) (fx address count : Nat)
    (vs : List Nat) (l : List LogEntry)
    (hfx : fx = 3 ∨ fx = 4)
    (hlookup : validate_file_response fs address count = (some vs, l)) :
    (getValues fallback fs true fx address count).1 = none
    ∧ (getValues fallback' fs false fx address count).1 = some vs
    ∧ LogEntry.mk LogLevel.info (LogMsg.fullResponseNotSent (format_modbus_response 1 fx vs))
        ∈ (getValues fallback fs true fx address count).2
    ∧ LogEntry.mk LogLevel.info (LogMsg.fullResponse (format_modbus_response 1 fx vs))
        ∈ (getValues fallback' fs false fx address count).2 := by
  rcases hfx with rfl | rfl <;> simp [getValues, hlookup]

/-- Claim C4: on function code 3 or 4 with a failed lookup, getValues
returns the no-response sentinel and its whole outcome is independent of the
inherited fallback handler; on every other function code it returns exactly
the fallback handler's result, having logged only the received request. -/
theorem dispatch_policy (fs : Nat → Option (List String)) (dummy_mode : Bool)
    (fx address count : Nat) :
    ((fx = 3 ∨ fx = 4) → (validate_file_response fs address count).1 = none →
        ∀ fallback fallback' : Nat → Nat → Nat → Option (List Nat),
          (getValues fallback fs dummy_mode fx address count).1 = none
          ∧ getValues fallback fs dummy_mode fx address count
              = getValues fallback' fs dummy_mode fx address count)
    ∧ (¬(fx = 3 ∨ fx = 4) →
        ∀ fallback : Nat → Nat → Nat → Option (List Nat),
          getValues fallback fs dummy_mode fx address count
            = (fallback fx address count,
               [LogEntry.mk LogLevel.info (LogMsg.receivedRequest fx address count)])) := by
  constructor
  · intro hfx hnone fallback fallback'
    rcases hval : validate_file_response fs address count with ⟨o, lg⟩
    have ho : o = none := by rw [hval] at hnone; exact hnone
    subst ho
    rcases hfx with rfl | rfl <;> simp [getValues, hval]
  · intro hfx fallback
    simp [getValues, hfx]

lemma optionMapList_eq_none {α β : Type _} (f : α → Option β) :
    ∀ (l : List α) (x : α), x ∈ l → f x = none → optionMapList f l = none
  | [], x, hx, _ => absurd hx (List.not_mem_nil x)
  | a :: as, x, hx, hf => by
    rcases List.mem_cons.mp hx with rfl | hmem
    · simp [optionMapList, hf]
    · unfold optionMapList
      cases hfa : f a with
      | none => rfl
      | some b => rw [optionMapList_eq_none f as x hmem hf]

/-- Claim C5: a kept line that fails hexadecimal parsing makes the lookup
return the parse-error outcome, with no partial data, and that outcome is
distinct from the outcome of a missing file. -/
theorem malformed_line_rejection (fs : Nat → Option (List String))
    (register_address count : Nat) (lines : List String) (bad : String)
    (hfile : fs register_address = some lines)
    (hmem : bad ∈ lines)
    (hkept : keepsLine (pyStrip bad) = true)
    (hbad : parseHexLine (pyStrip bad) = none) :
    validate_file_response fs register_address count
        = (none, [LogEntry.mk LogLevel.error (LogMsg.parseFailure register_address)])
    ∧ ∀ fs' : Nat → Option (List String), fs' register_address = none →
        validate_file_response fs' register_address count
          ≠ validate_file_response fs register_address count := by
  have hkeptmem : bad ∈ lines.filter (fun l => keepsLine (pyStrip l)) :=
    List.mem_filter.mpr ⟨hmem, hkept⟩
  have hpv : parsedValues lines = none :=
    optionMapList_eq_none (fun l => parseHexLine (pyStrip l)) _ bad hkeptmem hbad
  constructor
  · simp [validate_file_response, hfile, hpv]
  · intro fs' h'
    simp [validate_file_response, hfile, hpv, h']

/-- Claim C6: when the file exists, every kept line parses and at least
count values are present, the lookup returns exactly the first count parsed
values in file order, truncating trailing extras. -/
theorem lookup_truncation (fs : Nat → Option (List String))
    (register_address count : Nat) (lines : List String) (vals : List Nat)
    (hfile : fs register_address = some lines)
    (hparse : parsedValues lines = some vals)
    (hc : 1 ≤ count) (hlen : count ≤ vals.length) :
    (validate_file_response fs register_address count).1 = some (vals.take count) := by
  simp [validate_file_response, hfile, hparse, Nat.not_lt.mpr hlen]

/-- Claim C7: when the file exists and parses to strictly fewer values than
count, the lookup returns the insufficient-data outcome with no partial
sequence, whose returned value equals the missing-file returned value. -/
theorem insufficient_data (fs : Nat → Option (List String))
    (register_address count : Nat) (lines : List String) (vals : List Nat)
    (hfile : fs register_address = some lines)
    (hparse : parsedValues lines = some vals)
    (hlt : vals.length < count) :
    validate_file_response fs register_address count
        = (none, [LogEntry.mk LogLevel.warning
            (LogMsg.insufficientData register_address count vals.length)])
    ∧ (validate_file_response fs register_address count).1
        = (validate_file_response (fun _ => none) register_address count).1 := by
  constructor
  · simp [validate_file_response, hfile, hparse, hlt]
  · simp [validate_file_response, hfile, hparse, hlt]

/-- Claim C8: the lookup keeps exactly the lines whose stripped form starts
with 0x, in file order, every other line being skipped without any effect on
the outcome; on the sample file the kept values are 0xAB and 0x10 in that
order. -/
theorem line_filtering (fs fs' : Nat → Option (List String))
    (register_address count : Nat) (lines : List String)
    (hfile : fs register_address = some lines)
    (hfiltered : fs' register_address
      = some (lines.filter (fun l => keepsLine (pyStrip l)))) :
    validate_file_response fs register_address count
        = validate_file_response fs' register_address count
    ∧ parsedValues ["0xAB", "comment", "", "0x10"] = some [0xAB, 0x10] := by
  have hp : parsedValues (lines.filter (fun l => keepsLine (pyStrip l)))
      = parsedValues lines := by
    unfold parsedValues
    rw [List.filter_filter]
    simp
  constructor
  · simp [validate_file_response, hfile, hfiltered, hp]
  · decide

/-- Claim C9: a found lookup outcome under a positive requested count is
never the empty sequence of values. -/
theorem found_nonempty (fs : Nat → Option (List String))
    (register_address count : Nat) (vs : List Nat) (l : List LogEntry)
    (hc : 1 ≤ count)
    (h : validate_file_response fs register_address count = (some vs, l)) :
    vs ≠ [] := by
  cases hfs : fs register_address with
  | none => simp [validate_file_response, hfs] at h
  | some lines =>
    cases hpv : parsedValues lines with
    | none => simp [validate_file_response, hfs, hpv] at h
    | some hv =>
      by_cases hlt : hv.length < count
      · simp [validate_file_response, hfs, hpv, hlt] at h
      · simp [validate_file_response, hfs, hpv, hlt] at h
        obtain ⟨h1, -⟩ := h
        intro hnil
        have hlenvs : vs.length = min count hv.length := by
          rw [← h1, List.length_take]
        rw [hnil] at hlenvs
        simp at hlenvs
        omega

/-- Claim C10: parsed values are not range checked: a file parsing to a
single value v of sixteen bits or more is accepted by the lookup, returned
unchanged by getValues in live mode, while the logged frame encodes only the
low sixteen bits of v as two bytes, which no longer decode to v. -/
theorem oversized_value_passthrough (fs : Nat → Option (List String))
    (register_address : Nat) (lines : List String) (v : Nat)
    (fallback : Nat → Nat → Nat → Option (List Nat))
    (hfile : fs register_address = some lines)
    (hparse : parsedValues lines = some [v])
    (hv : 2 ^ 16 ≤ v) :
    (validate_file_response fs register_address 1).1 = some [v]
    ∧ (getValues fallback fs false 3 register_address 1).1 = some [v]
    ∧ response_frame 1 3 [v]
        = [1, 3, 2, v / 256 % 256, v % 256]
          ++ [calculate_crc [1, 3, 2, v / 256 % 256, v % 256] % 256,
              calculate_crc [1, 3, 2, v / 256 % 256, v % 256] / 256 % 256]
    ∧ v / 256 % 256 * 256 + v % 256 ≠ v := by
  have hval : validate_file_response fs register_address 1
      = (some [v], [LogEntry.mk LogLevel.info
          (LogMsg.requestDetails register_address 1 1)]) := by
    simp [validate_file_response, hfile, hparse]
  have hpayload : response_payload 1 3 [v] = [1, 3, 2, v / 256 % 256, v % 256] := by
    unfold response_payload
    simp [shiftRight8_eq_div, and_255_eq_mod]
  refine ⟨by simp [hval], by simp [getValues, hval], ?_, ?_⟩
  · unfold response_frame
    rw [hpayload, and_255_eq_mod, shiftRight8_eq_div, and_255_eq_mod]
  · have h1 : v % (256 * 256) = v % 256 + 256 * (v / 256 % 256) := Nat.mod_mul
    have h2 : v % (256 * 256) < 256 * 256 := Nat.mod_lt v (by norm_num)
    omega

/-- Witness for claim C3 at a concrete filesystem holding one response file. -/
theorem dryrun_suppression_check :
    (getValues (fun _ _ _ => none)
      (fun a => if a = 40002 then some ["0x000A"] else none) true 3 40002 1).1 = none :=
  (dryrun_suppression (fun _ _ _ => none) (fun _ _ _ => none)
    (fun a => if a = 40002 then some ["0x000A"] else none) 3 40002 1 [10]
    [LogEntry.mk LogLevel.info (LogMsg.requestDetails 40002 1 1)]
    (Or.inl rfl) (by decide)).1

/-- Witness for claim C4 at an unsupported function code. -/
theorem dispatch_policy_check :
    getValues (fun f a c => some [f, a, c]) (fun _ => none) false 7 5 2
      = (some [7, 5, 2], [LogEntry.mk LogLevel.info (LogMsg.receivedRequest 7 5 2)]) :=
  (dispatch_policy (fun _ => none) false 7 5 2).2 (by decide) (fun f a c => some [f, a, c])

/-- Witness for claim C5 at a file holding the unparsable kept line 0xZZ. -/
theorem malformed_line_rejection_check :
    validate_file_response (fun a => if a = 7 then some ["0xZZ"] else none) 7 1
      = (none, [LogEntry.mk LogLevel.error (LogMsg.parseFailure 7)]) :=
  (malformed_line_rejection (fun a => if a = 7 then some ["0xZZ"] else none) 7 1
    ["0xZZ"] "0xZZ" (by decide) (by decide) (by decide) (by decide)).1

/-- Witness for claim C6 at a four-value file read with count two. -/
theorem lookup_truncation_check :
    (validate_file_response
      (fun _ => some ["0x000A", "0x0014", "0x001E", "0x0028"]) 40002 2).1
      = some (List.take 2 [10, 20, 30, 40]) :=
  lookup_truncation (fun _ => some ["0x000A", "0x0014", "0x001E", "0x0028"]) 40002 2
    ["0x000A", "0x0014", "0x001E", "0x0028"] [10, 20, 30, 40]
    (by decide) (by decide) (by decide) (by decide)

/-- Witness for claim C7 at a two-value file read with count three. -/
theorem insufficient_data_check :
    validate_file_response (fun _ => some ["0x000A", "0x0014"]) 40002 3
      = (none, [LogEntry.mk LogLevel.warning (LogMsg.insufficientData 40002 3 2)]) :=
  (insufficient_data (fun _ => some ["0x000A", "0x0014"]) 40002 3
    ["0x000A", "0x0014"] [10, 20] (by decide) (by decide) (by decide)).1

/-- Witness for claim C8 at the sample mixed file. -/
theorem line_filtering_check :
    validate_file_response (fun _ => some ["0xAB", "comment", "", "0x10"]) 40002 2
      = validate_file_response (fun _ => some ["0xAB", "0x10"]) 40002 2 :=
  (line_filtering (fun _ => some ["0xAB", "comment", "", "0x10"])
    (fun _ => some ["0xAB", "0x10"]) 40002 2 ["0xAB", "comment", "", "0x10"]
    (by decide) (by decide)).1

/-- Witness for claim C9 at a concrete one-value file. -/
theorem found_nonempty_check :
    validate_file_response (fun _ => some ["0x000A"]) 5 1
        = (some [10], [LogEntry.mk LogLevel.info (LogMsg.requestDetails 5 1 1)])
    ∧ ([10] : List Nat) ≠ [] :=
  ⟨by decide,
    found_nonempty (fun _ => some ["0x000A"]) 5 1 [10]
      [LogEntry.mk LogLevel.info (LogMsg.requestDetails 5 1 1)] (by decide) (by decide)⟩

/-- Witness for claim C10 at the value 0x12345. -/
theorem oversized_value_passthrough_check :
    (getValues (fun _ _ _ => none) (fun _ => some ["0x12345"]) false 3 40001 1).1
      = some [0x12345] :=
  (oversized_value_passthrough (fun _ => some ["0x12345"]) 40001 ["0x12345"] 0x12345
    (fun _ _ _ => none) (by decide) (by decide) (by norm_num)).2.1

end Tesla
